import Mathlib

/-!
Verification of the resource-path validation and backup-request
construction logic of the Cloud Spanner database-admin wrapper.

Go strings are embedded as `List Char` (`Str`); `strings.Split` with the
single-character separator `'/'` is embedded as `splitOnChar`, which has
exactly the semantics of the Go function for a one-character separator:
the input is cut at every occurrence of the separator and the pieces
(which therefore contain no separator) are returned in order, with
`split "" = [""]`.

The regular expression
`^projects/[^/]+/instances/[^/]+/databases/[^/]+$` (and its variant with
named capture groups, which accepts exactly the same strings since group
names do not affect matching) is embedded by its matching semantics: a
string matches iff splitting it on `'/'` yields exactly the six parts
`["projects", p, "instances", i, "databases", d]` with `p`, `i`, `d`
non-empty; the named groups capture `p`, `i`, `d`.
-/

/-- Go strings, embedded as lists of characters. -/
abbrev Str := List Char

/-- Coerce a Lean string literal to the embedding type. -/
def str (s : String) : Str := s.data

/-- Embedding of Go `strings.Split(s, sep)` for a one-character separator. -/
def splitOnChar (sep : Char) : Str → List Str
  | [] => [[]]
  | c :: cs =>
    if c = sep then [] :: splitOnChar sep cs
    else
      match splitOnChar sep cs with
      | [] => [[c]]
      | h :: t => (c :: h) :: t

/-- Join a list of parts with a one-character separator (inverse of
`splitOnChar`); embeds the `strings.Join`-shape of `fmt.Sprintf` with
`%s/%s/.../%s`. -/
def joinSep (sep : Char) : List Str → Str
  | [] => []
  | [x] => x
  | x :: y :: xs => x ++ sep :: joinSep sep (y :: xs)

theorem splitOnChar_ne_nil (sep : Char) (s : Str) : splitOnChar sep s ≠ [] := by
  induction s with
  | nil => simp [splitOnChar]
  | cons c cs ih =>
    simp only [splitOnChar]
    split
    · simp
    · split
      · simp
      · simp

/-- Splitting a separator-free string returns the single part. -/
theorem splitOnChar_of_not_mem {sep : Char} {s : Str} (h : sep ∉ s) :
    splitOnChar sep s = [s] := by
  induction s with
  | nil => rfl
  | cons c cs ih =>
    have hc : c ≠ sep := fun hc => h (hc ▸ List.mem_cons_self c cs)
    have hcs : sep ∉ cs := fun hm => h (List.mem_cons_of_mem c hm)
    simp only [splitOnChar, if_neg hc, ih hcs]

/-- Splitting pulls off a separator-free prefix as the first part. -/
theorem splitOnChar_append {sep : Char} {xs : Str} (ys : Str) (h : sep ∉ xs) :
    splitOnChar sep (xs ++ sep :: ys) = xs :: splitOnChar sep ys := by
  induction xs with
  | nil => simp [splitOnChar]
  | cons c cs ih =>
    have hc : c ≠ sep := fun hc => h (hc ▸ List.mem_cons_self c cs)
    have hcs : sep ∉ cs := fun hm => h (List.mem_cons_of_mem c hm)
    simp only [List.cons_append, splitOnChar, if_neg hc, List.append_eq, ih hcs]

/-- Joining the parts of a split reconstructs the original string. -/
theorem joinSep_splitOnChar (sep : Char) (s : Str) :
    joinSep sep (splitOnChar sep s) = s := by
  induction s with
  | nil => rfl
  | cons c cs ih =>
    simp only [splitOnChar]
    split
    · rename_i hc
      rcases hsplit : splitOnChar sep cs with _ | ⟨h1, t1⟩
      · exact absurd hsplit (splitOnChar_ne_nil sep cs)
      · rw [hsplit] at ih
        simp [joinSep, hc, ← ih]
    · rcases hsplit : splitOnChar sep cs with _ | ⟨h1, t1⟩
      · exact absurd hsplit (splitOnChar_ne_nil sep cs)
      · rw [hsplit] at ih
        rcases t1 with _ | ⟨h2, t2⟩
        · simpa [joinSep] using congrArg (c :: ·) ih
        · simp only [joinSep] at ih ⊢
          simpa [List.cons_append] using congrArg (c :: ·) ih

/-- Every part produced by `strings.Split` is separator-free. -/
theorem not_mem_of_mem_splitOnChar {sep : Char} {s : Str} :
    ∀ p ∈ splitOnChar sep s, sep ∉ p := by
  induction s with
  | nil =>
    intro p hp
    simp [splitOnChar] at hp
    simp [hp]
  | cons c cs ih =>
    intro p hp
    simp only [splitOnChar] at hp
    split at hp
    · rcases List.mem_cons.1 hp with h | h
      · simp [h]
      · exact ih p h
    · rename_i hc
      rcases hsplit : splitOnChar sep cs with _ | ⟨h1, t1⟩
      · exact absurd hsplit (splitOnChar_ne_nil sep cs)
      · rw [hsplit] at hp
        rcases List.mem_cons.1 hp with h | h
        · subst h
          intro hmem
          rcases List.mem_cons.1 hmem with h | h
          · exact hc h.symm
          · exact ih h1 (hsplit ▸ List.mem_cons_self h1 t1) h
        · exact ih p (hsplit ▸ List.mem_cons_of_mem h1 h)

/-!
Data model: the protobuf messages built by the backup-construction code
(`pbt.Timestamp`, `databasepb.Backup`, `databasepb.CreateBackupRequest`),
the error value produced by
`fmt.Errorf("database name %q should conform to pattern %q", db, pattern)`
(kept structured: the offending string and the pattern string it embeds),
and the Go `time.Time` value restricted to what the code reads from it
(`Unix()` whole seconds and `Nanosecond()` sub-second nanoseconds).
-/

/-- The two compiled pattern literals (`validDBPattern.String()`); the
named-group variant appears in the tuple-returning `validDatabaseName`
and inline in `StartBackupOperation`, the plain one in the error-only
`validDatabaseName` of `backup.go`. -/
def validDBPatternStr : Str :=
  str "^projects/[^/]+/instances/[^/]+/databases/[^/]+$"

/-- The named-group pattern literal. It matches exactly the same strings
as `validDBPatternStr`: capture-group names do not affect matching. -/
def validDBPatternNamedStr : Str :=
  str ("^projects/(?P<project>[^/]+)/instances/(?P<instance>[^/]+)" ++
       "/databases/(?P<database>[^/]+)$")

/-- The error built by
`fmt.Errorf("database name %q should conform to pattern %q", db, pat)`:
it embeds the offending database string and the expected pattern. -/
structure DBNameError where
  offending : Str
  pattern : Str
deriving DecidableEq

/-- Embedding of `pbt.Timestamp` (fields `Seconds int64`, `Nanos int32`). -/
structure Timestamp where
  Seconds : Int
  Nanos : Int
deriving DecidableEq

/-- Embedding of the `databasepb.Backup` fields set by this code. -/
structure Backup where
  Database : Str
  ExpireTime : Timestamp
deriving DecidableEq

/-- Embedding of the `databasepb.CreateBackupRequest` fields set by this
code. -/
structure CreateBackupRequest where
  Parent : Str
  BackupId : Str
  backup : Backup
deriving DecidableEq

/-- Go `time.Time` as read by this code: `sec` whole seconds since the
Unix epoch (`Unix()`), `nsec` the nanosecond offset within the second
(`Nanosecond()`, in `[0, 1e9)` for every `time.Time` Go can construct). -/
structure Time where
  sec : Int
  nsec : Int
deriving DecidableEq

/-- Embedding of Go `time.Unix(sec, nsec)`: the nanosecond argument is
normalized into `[0, 1e9)` by floor division, carrying whole seconds into
`sec` (for the positive modulus `1e9`, the Go adjustment loop computes
exactly the floor quotient and remainder, i.e. Euclidean division). -/
def unixTime (sec nsec : Int) : Time :=
  ⟨sec + nsec / 1000000000, nsec % 1000000000⟩

/-- Embedding of `t.Unix()`: whole seconds since the epoch. -/
def Time.Unix (t : Time) : Int := t.sec

/-- Embedding of `t.Nanosecond()`: the nanosecond offset within the second. -/
def Time.Nanosecond (t : Time) : Int := t.nsec

/-- The instant denoted by a `Time`, in nanoseconds since the epoch. -/
def Time.unixNanos (t : Time) : Int := t.sec * 1000000000 + t.nsec

/-- Embedding of the Go `int32(x)` conversion (wraps modulo `2^32`). -/
def int32cast (x : Int) : Int :=
  (x + 2147483648) % 4294967296 - 2147483648

/-- Embedding of `timestampProto` (`backup.go` and the unnamed file agree
verbatim): `Seconds: t.Unix(), Nanos: int32(t.Nanosecond())`. -/
def timestampProto (t : Time) : Timestamp :=
  ⟨t.Unix, int32cast t.Nanosecond⟩

/-!
The validators. The regex match is embedded by its semantics on the
split: `db` matches
`^projects/[^/]+/instances/[^/]+/databases/[^/]+$` iff
`strings.Split(db, "/")` is exactly
`["projects", p, "instances", i, "databases", d]` with `p`, `i`, `d`
non-empty (each `[^/]+` consumes a maximal non-empty run of
non-separator characters, and the anchors force the whole string), and
then `ReplaceAllString` with `${project}`/`${instance}`/`${database}`
yields the captures `p`/`i`/`d`.
-/

/-- Matching-plus-capture semantics of `validDBPattern` applied to `db`:
`some (project, instance, database)` on a match, `none` otherwise. -/
def extractDBParts (db : Str) : Option (Str × Str × Str) :=
  match splitOnChar '/' db with
  | [l0, p, l1, i, l2, d] =>
    if l0 = str "projects" ∧ l1 = str "instances" ∧ l2 = str "databases" ∧
        p ≠ [] ∧ i ≠ [] ∧ d ≠ [] then
      some (p, i, d)
    else none
  | _ => none

/-- Embedding of `validDBPattern.MatchString db` (same answer for both pattern
variants, since group names do not affect matching). -/
def matchesDBPattern (db : Str) : Bool :=
  (extractDBParts db).isSome

/-- Embedding of the tuple-returning `validDatabaseName` of the unnamed
file: on a match it extracts the three named captures, otherwise it
returns the formatted error. -/
def validDatabaseName (db : Str) : Except DBNameError (Str × Str × Str) :=
  match extractDBParts db with
  | some pid => .ok pid
  | none => .error ⟨db, validDBPatternNamedStr⟩

/-- Embedding of the error-only `validDatabaseName` of `backup.go`:
`some err` models a non-nil error, `none` models a nil error. -/
def validDatabaseNameErr (db : Str) : Option DBNameError :=
  if matchesDBPattern db then none
  else some ⟨db, validDBPatternStr⟩

/-- Embedding of `getInstanceNameFromDatabasePath`: split on `/`, read
parts 0–3, join with `fmt.Sprintf("%s/%s/%s/%s", ...)`. A Go
out-of-range panic (index beyond the split) is modelled as `none`. -/
def getInstanceNameFromDatabasePath (databasePath : Str) : Option Str :=
  let pathParts := splitOnChar '/' databasePath
  match pathParts[0]?, pathParts[1]?, pathParts[2]?, pathParts[3]? with
  | some projectsLabel, some projectName, some instanceLabel,
      some instanceName =>
    some (projectsLabel ++ str "/" ++ projectName ++ str "/" ++
          instanceLabel ++ str "/" ++ instanceName)
  | _, _, _, _ => none

/-- Outcome of a backup-construction call: a validation error returned
to the caller, a Go panic (out-of-range index), or the
`CreateBackupRequest` forwarded to the generated `CreateBackup`. -/
inductive BackupCallResult where
  | err (e : DBNameError)
  | outOfRange
  | req (r : CreateBackupRequest)
deriving DecidableEq

/-- Embedding of `CreateNewBackup` (`backup.go`): validate, build the
expire timestamp, derive the parent instance path, and construct the
request forwarded to the generated client. -/
def CreateNewBackup (backupID databasePath : Str) (expireTime : Time) :
    BackupCallResult :=
  match validDatabaseNameErr databasePath with
  | some e => .err e
  | none =>
    let expireTimepb := timestampProto expireTime
    match getInstanceNameFromDatabasePath databasePath with
    | none => .outOfRange
    | some parent =>
      .req ⟨parent, backupID, ⟨databasePath, expireTimepb⟩⟩

/-- Embedding of `StartBackupOperation` (unnamed file): inline regex
match, inline timestamp construction, and
`fmt.Sprintf("projects/%s/instances/%s", fragments[1], fragments[3])`
over the split fragments. -/
def StartBackupOperation (backupID database : Str) (expires : Time) :
    BackupCallResult :=
  if matchesDBPattern database then
    let expireTimepb : Timestamp := ⟨expires.Unix, int32cast expires.Nanosecond⟩
    let fragments := splitOnChar '/' database
    match fragments[1]?, fragments[3]? with
    | some f1, some f3 =>
      .req ⟨str "projects/" ++ f1 ++ str "/instances/" ++ f3, backupID,
            ⟨database, expireTimepb⟩⟩
    | _, _ => .outOfRange
  else .err ⟨database, validDBPatternNamedStr⟩

/-- The shape required by the specification: a database resource path is
valid iff it is `projects/P/instances/I/databases/D` for non-empty,
slash-free `P`, `I`, `D`. -/
def IsValidDBPath (db : Str) : Prop :=
  ∃ p i d : Str,
    p ≠ [] ∧ i ≠ [] ∧ d ≠ [] ∧ '/' ∉ p ∧ '/' ∉ i ∧ '/' ∉ d ∧
    db = str "projects/" ++ p ++ str "/instances/" ++ i ++
         str "/databases/" ++ d

theorem dbPath_cons (p i d : Str) :
    str "projects/" ++ p ++ str "/instances/" ++ i ++
      str "/databases/" ++ d =
    str "projects" ++ '/' :: (p ++ '/' ::
      (str "instances" ++ '/' :: (i ++ '/' ::
        (str "databases" ++ '/' :: d)))) := by
  simp only [List.append_assoc]
  rfl

/-- Splitting a well-formed database path yields exactly the six parts. -/
theorem splitOnChar_dbPath {p i d : Str}
    (hp : '/' ∉ p) (hi : '/' ∉ i) (hd : '/' ∉ d) :
    splitOnChar '/' (str "projects/" ++ p ++ str "/instances/" ++ i ++
      str "/databases/" ++ d) =
    [str "projects", p, str "instances", i, str "databases", d] := by
  rw [dbPath_cons]
  rw [splitOnChar_append _ (by decide)]
  rw [splitOnChar_append _ hp]
  rw [splitOnChar_append _ (by decide)]
  rw [splitOnChar_append _ hi]
  rw [splitOnChar_append _ (by decide)]
  rw [splitOnChar_of_not_mem hd]

/-- Characterization of a successful match-plus-capture. -/
theorem extractDBParts_eq_some {db p i d : Str} :
    extractDBParts db = some (p, i, d) ↔
    splitOnChar '/' db =
      [str "projects", p, str "instances", i, str "databases", d] ∧
    p ≠ [] ∧ i ≠ [] ∧ d ≠ [] := by
  unfold extractDBParts
  constructor
  · intro h
    split at h
    · rename_i l0 p' l1 i' l2 d' heq
      split at h
      · rename_i hcond
        obtain ⟨h0, h1, h2, hp, hi, hd⟩ := hcond
        obtain ⟨rfl, rfl, rfl⟩ : p' = p ∧ i' = i ∧ d' = d := by
          simpa using h
        subst h0; subst h1; subst h2
        exact ⟨heq, hp, hi, hd⟩
      · exact absurd h (by simp)
    · exact absurd h (by simp)
  · rintro ⟨hs, hp, hi, hd⟩
    rw [hs]
    simp [hp, hi, hd]

/-- The matcher of the code accepts exactly the well-formed database paths. -/
theorem matchesDBPattern_iff {db : Str} :
    matchesDBPattern db = true ↔ IsValidDBPath db := by
  constructor
  · intro h
    obtain ⟨⟨p, i, d⟩, hpid⟩ :=
      Option.isSome_iff_exists.1 (by simpa [matchesDBPattern] using h)
    obtain ⟨hs, hp, hi, hd⟩ := extractDBParts_eq_some.1 hpid
    refine ⟨p, i, d, hp, hi, hd, ?_, ?_, ?_, ?_⟩
    · exact not_mem_of_mem_splitOnChar p (by rw [hs]; simp)
    · exact not_mem_of_mem_splitOnChar i (by rw [hs]; simp)
    · exact not_mem_of_mem_splitOnChar d (by rw [hs]; simp)
    · have := joinSep_splitOnChar '/' db
      rw [hs] at this
      rw [← this, dbPath_cons]
      simp [joinSep]
  · rintro ⟨p, i, d, hp, hi, hd, hp', hi', hd', rfl⟩
    have hs := splitOnChar_dbPath hp' hi' hd'
    unfold matchesDBPattern
    rw [extractDBParts_eq_some.2 ⟨hs, hp, hi, hd⟩]
    rfl

/-- Capture extraction on a well-formed path returns the three tokens. -/
theorem extractDBParts_dbPath {p i d : Str}
    (hp : p ≠ []) (hi : i ≠ []) (hd : d ≠ [])
    (hp' : '/' ∉ p) (hi' : '/' ∉ i) (hd' : '/' ∉ d) :
    extractDBParts (str "projects/" ++ p ++ str "/instances/" ++ i ++
      str "/databases/" ++ d) = some (p, i, d) :=
  extractDBParts_eq_some.2 ⟨splitOnChar_dbPath hp' hi' hd', hp, hi, hd⟩


/-!
Shared operational lemmas: behaviour of each embedded function on
well-formed paths and on rejected strings.
-/

/-- A string that is not a well-formed database path fails the match. -/
theorem matchesDBPattern_eq_false {db : Str} (h : ¬ IsValidDBPath db) :
    matchesDBPattern db = false := by
  cases hx : matchesDBPattern db with
  | false => rfl
  | true => exact absurd (matchesDBPattern_iff.1 hx) h

/-- A string that is not a well-formed database path extracts nothing. -/
theorem extractDBParts_eq_none {db : Str} (h : ¬ IsValidDBPath db) :
    extractDBParts db = none := by
  have hm := matchesDBPattern_eq_false h
  unfold matchesDBPattern at hm
  exact Option.not_isSome_iff_eq_none.1 (by simp [hm])

/-- The error-only validator accepts a well-formed path. -/
theorem validDatabaseNameErr_dbPath {p i d : Str}
    (hp : p ≠ []) (hi : i ≠ []) (hd : d ≠ [])
    (hp' : '/' ∉ p) (hi' : '/' ∉ i) (hd' : '/' ∉ d) :
    validDatabaseNameErr (str "projects/" ++ p ++ str "/instances/" ++ i ++
      str "/databases/" ++ d) = none := by
  unfold validDatabaseNameErr
  rw [matchesDBPattern_iff.2 ⟨p, i, d, hp, hi, hd, hp', hi', hd', rfl⟩]
  rfl

/-- The parent-path derivation on a well-formed database path returns
the instance path, and the panic branch is not taken. -/
theorem getInstanceNameFromDatabasePath_dbPath {p i d : Str}
    (hp' : '/' ∉ p) (hi' : '/' ∉ i) (hd' : '/' ∉ d) :
    getInstanceNameFromDatabasePath (str "projects/" ++ p ++
      str "/instances/" ++ i ++ str "/databases/" ++ d) =
    some (str "projects/" ++ p ++ str "/instances/" ++ i) := by
  unfold getInstanceNameFromDatabasePath
  rw [splitOnChar_dbPath hp' hi' hd']
  show some (str "projects" ++ str "/" ++ p ++ str "/" ++ str "instances" ++
    str "/" ++ i) = _
  simp only [List.append_assoc]
  rfl

/-- On a well-formed path, `CreateNewBackup` forwards the request with
the derived parent, the caller-supplied backup id, the original path and
the decomposed expire time. -/
theorem CreateNewBackup_dbPath {p i d : Str} (backupID : Str) (t : Time)
    (hp : p ≠ []) (hi : i ≠ []) (hd : d ≠ [])
    (hp' : '/' ∉ p) (hi' : '/' ∉ i) (hd' : '/' ∉ d) :
    CreateNewBackup backupID (str "projects/" ++ p ++ str "/instances/" ++
      i ++ str "/databases/" ++ d) t =
    .req ⟨str "projects/" ++ p ++ str "/instances/" ++ i, backupID,
          ⟨str "projects/" ++ p ++ str "/instances/" ++ i ++
             str "/databases/" ++ d, timestampProto t⟩⟩ := by
  unfold CreateNewBackup
  rw [validDatabaseNameErr_dbPath hp hi hd hp' hi' hd']
  rw [getInstanceNameFromDatabasePath_dbPath hp' hi' hd']

/-- On a well-formed path, `StartBackupOperation` forwards the same
request. -/
theorem StartBackupOperation_dbPath {p i d : Str} (backupID : Str) (t : Time)
    (hp : p ≠ []) (hi : i ≠ []) (hd : d ≠ [])
    (hp' : '/' ∉ p) (hi' : '/' ∉ i) (hd' : '/' ∉ d) :
    StartBackupOperation backupID (str "projects/" ++ p ++
      str "/instances/" ++ i ++ str "/databases/" ++ d) t =
    .req ⟨str "projects/" ++ p ++ str "/instances/" ++ i, backupID,
          ⟨str "projects/" ++ p ++ str "/instances/" ++ i ++
             str "/databases/" ++ d, timestampProto t⟩⟩ := by
  unfold StartBackupOperation
  rw [matchesDBPattern_iff.2 ⟨p, i, d, hp, hi, hd, hp', hi', hd', rfl⟩]
  rw [if_pos rfl]
  rw [splitOnChar_dbPath hp' hi' hd']
  show BackupCallResult.req ⟨str "projects/" ++ p ++ str "/instances/" ++ i,
    backupID, _⟩ = _
  rfl

/-- On a rejected string, `CreateNewBackup` returns the validation error
built from the offending string and the plain pattern. -/
theorem CreateNewBackup_err {db : Str} (backupID : Str) (t : Time)
    (h : ¬ IsValidDBPath db) :
    CreateNewBackup backupID db t = .err ⟨db, validDBPatternStr⟩ := by
  unfold CreateNewBackup validDatabaseNameErr
  rw [matchesDBPattern_eq_false h]
  rfl

/-- On a rejected string, `StartBackupOperation` returns the validation
error built from the offending string and the named-group pattern. -/
theorem StartBackupOperation_err {db : Str} (backupID : Str) (t : Time)
    (h : ¬ IsValidDBPath db) :
    StartBackupOperation backupID db t = .err ⟨db, validDBPatternNamedStr⟩ := by
  unfold StartBackupOperation
  rw [matchesDBPattern_eq_false h]
  rfl

/-- With at least four split segments every index read by
`getInstanceNameFromDatabasePath` is in bounds. -/
theorem getInstanceNameFromDatabasePath_isSome {db : Str}
    (h : 4 ≤ (splitOnChar '/' db).length) :
    (getInstanceNameFromDatabasePath db).isSome = true := by
  unfold getInstanceNameFromDatabasePath
  dsimp only
  rw [List.getElem?_eq_getElem (by omega), List.getElem?_eq_getElem (by omega),
    List.getElem?_eq_getElem (by omega), List.getElem?_eq_getElem (by omega)]
  rfl

/-- With fewer than four split segments the fourth index read is out of
range. -/
theorem getInstanceNameFromDatabasePath_outOfRange {db : Str}
    (h : (splitOnChar '/' db).length < 4) :
    getInstanceNameFromDatabasePath db = none := by
  unfold getInstanceNameFromDatabasePath
  dsimp only
  rw [show (splitOnChar '/' db)[3]? = (none : Option Str) from
    List.getElem?_eq_none (by omega)]
  rcases (splitOnChar '/' db)[0]? with _ | a <;>
    rcases (splitOnChar '/' db)[1]? with _ | b <;>
      rcases (splitOnChar '/' db)[2]? with _ | c <;> rfl

/-- A matching string splits into exactly six segments. -/
theorem splitOnChar_length_of_matches {db : Str}
    (h : matchesDBPattern db = true) :
    (splitOnChar '/' db).length = 6 := by
  obtain ⟨⟨p, i, d⟩, hpid⟩ :=
    Option.isSome_iff_exists.1 (by simpa [matchesDBPattern] using h)
  rw [(extractDBParts_eq_some.1 hpid).1]
  rfl

/-- For a nanosecond offset produced by the `time.Unix` normalization the
`int32` conversion is the identity. -/
theorem int32cast_emod (nsec : Int) :
    int32cast (nsec % 1000000000) = nsec % 1000000000 := by
  have h1 : 0 ≤ nsec % 1000000000 := Int.emod_nonneg _ (by norm_num)
  have h2 : nsec % 1000000000 < 1000000000 := Int.emod_lt_of_pos _ (by norm_num)
  unfold int32cast
  rw [Int.emod_eq_of_lt (by omega) (by omega)]
  omega

/-!
The claims.
-/

/-- C1: for every triple of non-empty strings `P`, `I`, `D` containing no
slash, `validDatabaseName` applied to
`projects/P/instances/I/databases/D` succeeds and extracts exactly
`(P, I, D)` as project, instance and database. -/
theorem claimC1_validDatabaseName_parses_valid_path (p i d : Str)
    (hp : p ≠ []) (hi : i ≠ []) (hd : d ≠ [])
    (hp' : '/' ∉ p) (hi' : '/' ∉ i) (hd' : '/' ∉ d) :
    validDatabaseName (str "projects/" ++ p ++ str "/instances/" ++ i ++
      str "/databases/" ++ d) = .ok (p, i, d) := by
  unfold validDatabaseName
  rw [extractDBParts_dbPath hp hi hd hp' hi' hd']

/-- Witness for C1, at the concrete path of the unit test. -/
theorem claimC1_witness :
    str "spanner-cloud-test" ≠ [] ∧
    validDatabaseName (str "projects/" ++ str "spanner-cloud-test" ++
      str "/instances/" ++ str "fooinstance" ++ str "/databases/" ++
      str "foodb") =
    .ok (str "spanner-cloud-test", str "fooinstance", str "foodb") :=
  ⟨by decide,
   claimC1_validDatabaseName_parses_valid_path _ _ _ (by decide) (by decide)
     (by decide) (by decide) (by decide) (by decide)⟩

/-- C2: every string that is not of the exact four-segment shape
`projects/<non-slash>/instances/<non-slash>/databases/<non-slash>` is
rejected by both `validDatabaseName` variants with an error embedding the
offending string and the expected pattern. -/
theorem claimC2_invalid_path_rejected (db : Str) (h : ¬ IsValidDBPath db) :
    validDatabaseName db = .error ⟨db, validDBPatternNamedStr⟩ ∧
    validDatabaseNameErr db = some ⟨db, validDBPatternStr⟩ := by
  constructor
  · unfold validDatabaseName
    rw [extractDBParts_eq_none h]
  · unfold validDatabaseNameErr
    rw [matchesDBPattern_eq_false h]
    rfl

/-- Witness for C2, at the concrete malformed path of the unit test. -/
theorem claimC2_witness :
    validDatabaseName (str "project/instances/databases/foodb") =
      .error ⟨str "project/instances/databases/foodb",
              validDBPatternNamedStr⟩ ∧
    validDatabaseNameErr (str "project/instances/databases/foodb") =
      some ⟨str "project/instances/databases/foodb", validDBPatternStr⟩ :=
  claimC2_invalid_path_rejected _
    (fun h => absurd (matchesDBPattern_iff.2 h) (by decide))

/-- C3: the parent-instance-path derivation applied to
`projects/P/instances/I/databases/D` returns exactly
`projects/P/instances/I` for every non-empty slash-free `P`, `I`, `D`. -/
theorem claimC3_parent_instance_path (p i d : Str)
    (hp : p ≠ []) (hi : i ≠ []) (hd : d ≠ [])
    (hp' : '/' ∉ p) (hi' : '/' ∉ i) (hd' : '/' ∉ d) :
    getInstanceNameFromDatabasePath (str "projects/" ++ p ++
      str "/instances/" ++ i ++ str "/databases/" ++ d) =
    some (str "projects/" ++ p ++ str "/instances/" ++ i) :=
  getInstanceNameFromDatabasePath_dbPath hp' hi' hd'

/-- Witness for C3 at a concrete path. -/
theorem claimC3_witness :
    str "some-project" ≠ [] ∧
    getInstanceNameFromDatabasePath (str "projects/" ++
      str "some-project" ++ str "/instances/" ++ str "some-instance" ++
      str "/databases/" ++ str "some-database") =
    some (str "projects/" ++ str "some-project" ++ str "/instances/" ++
      str "some-instance") :=
  ⟨by decide,
   claimC3_parent_instance_path _ _ _ (by decide) (by decide) (by decide)
     (by decide) (by decide) (by decide)⟩

/-- C4: `timestampProto` round-trips: for the instant `unixTime sec nsec`
the decomposition satisfies `Seconds * 1e9 + Nanos` equal to the instant
in nanoseconds since the epoch, which is `sec * 1e9 + nsec`. -/
theorem claimC4_timestampProto_roundtrip (sec nsec : Int) :
    (timestampProto (unixTime sec nsec)).Seconds * 1000000000 +
      (timestampProto (unixTime sec nsec)).Nanos =
      (unixTime sec nsec).unixNanos ∧
    (unixTime sec nsec).unixNanos = sec * 1000000000 + nsec := by
  constructor
  · show (sec + nsec / 1000000000) * 1000000000 +
      int32cast (nsec % 1000000000) = _
    rw [int32cast_emod]
    rfl
  · show (sec + nsec / 1000000000) * 1000000000 + nsec % 1000000000 =
      sec * 1000000000 + nsec
    omega

/-- C5: on a valid database path, `CreateNewBackup` builds the request
with the derived parent instance path, the original database path, the
caller-supplied backup id and the decomposed expire time. -/
theorem claimC5_request_construction (backupID p i d : Str) (t : Time)
    (hp : p ≠ []) (hi : i ≠ []) (hd : d ≠ [])
    (hp' : '/' ∉ p) (hi' : '/' ∉ i) (hd' : '/' ∉ d) :
    CreateNewBackup backupID (str "projects/" ++ p ++ str "/instances/" ++
      i ++ str "/databases/" ++ d) t =
    .req ⟨str "projects/" ++ p ++ str "/instances/" ++ i, backupID,
          ⟨str "projects/" ++ p ++ str "/instances/" ++ i ++
             str "/databases/" ++ d, timestampProto t⟩⟩ :=
  CreateNewBackup_dbPath backupID t hp hi hd hp' hi' hd'

/-- Witness for C5, at the concrete request of the unit test. -/
theorem claimC5_witness :
    CreateNewBackup (str "some-backup") (str "projects/" ++
      str "some-project" ++ str "/instances/" ++ str "some-instance" ++
      str "/databases/" ++ str "some-database")
      (unixTime 221688000 500) =
    .req ⟨str "projects/some-project/instances/some-instance",
          str "some-backup",
          ⟨str "projects/some-project/instances/some-instance/databases/some-database",
           ⟨221688000, 500⟩⟩⟩ :=
  (claimC5_request_construction (str "some-backup") _ _ _
    (unixTime 221688000 500) (by decide) (by decide) (by decide)
    (by decide) (by decide) (by decide)).trans (by decide)

/-- C6: on a string failing validation, both `CreateNewBackup` and
`StartBackupOperation` return the validation error and forward no
request. -/
theorem claimC6_invalid_path_no_request (backupID db : Str) (t : Time)
    (h : ¬ IsValidDBPath db) :
    CreateNewBackup backupID db t = .err ⟨db, validDBPatternStr⟩ ∧
    StartBackupOperation backupID db t =
      .err ⟨db, validDBPatternNamedStr⟩ :=
  ⟨CreateNewBackup_err backupID t h, StartBackupOperation_err backupID t h⟩

/-- Witness for C6 at a concrete malformed path. -/
theorem claimC6_witness :
    CreateNewBackup (str "some-backup")
      (str "project/instances/databases/foodb") (unixTime 0 0) =
      .err ⟨str "project/instances/databases/foodb", validDBPatternStr⟩ ∧
    StartBackupOperation (str "some-backup")
      (str "project/instances/databases/foodb") (unixTime 0 0) =
      .err ⟨str "project/instances/databases/foodb",
            validDBPatternNamedStr⟩ :=
  claimC6_invalid_path_no_request _ _ _
    (fun h => absurd (matchesDBPattern_iff.2 h) (by decide))

/-- C7: the concrete `timestampProto` cases of the unit test: the epoch
gives `{0, 0}`, the positive instant `(1136239445 s, 12345 ns)` gives
`{1136239445, 12345}` and the pre-epoch instant `(-1000 s, 12345 ns)`
gives `{-1000, 12345}`. -/
theorem claimC7_timestampProto_cases :
    timestampProto (unixTime 0 0) = ⟨0, 0⟩ ∧
    timestampProto (unixTime 1136239445 12345) = ⟨1136239445, 12345⟩ ∧
    timestampProto (unixTime (-1000) 12345) = ⟨-1000, 12345⟩ :=
  ⟨by decide, by decide, by decide⟩

/-- C8: under the precondition that the string passes pattern validation
the split has at least four segments and every index read by
`getInstanceNameFromDatabasePath` is in bounds (no out-of-range access);
without it, with fewer than four segments, the fourth index read is out
of range (a Go panic, modelled as `none`). -/
theorem claimC8_index_safety (db : Str) :
    (matchesDBPattern db = true →
      4 ≤ (splitOnChar '/' db).length ∧
      (getInstanceNameFromDatabasePath db).isSome = true) ∧
    ((splitOnChar '/' db).length < 4 →
      getInstanceNameFromDatabasePath db = none) := by
  constructor
  · intro h
    have h6 := splitOnChar_length_of_matches h
    exact ⟨by omega, getInstanceNameFromDatabasePath_isSome (by omega)⟩
  · exact getInstanceNameFromDatabasePath_outOfRange

/-- Witness for C8: a validated path is read in bounds, a two-character
string has too few segments and the access is out of range. -/
theorem claimC8_witness :
    (4 ≤ (splitOnChar '/'
        (str "projects/a/instances/b/databases/c")).length ∧
      (getInstanceNameFromDatabasePath
        (str "projects/a/instances/b/databases/c")).isSome = true) ∧
    getInstanceNameFromDatabasePath (str "ab") = none :=
  ⟨(claimC8_index_safety (str "projects/a/instances/b/databases/c")).1
     (by decide),
   (claimC8_index_safety (str "ab")).2 (by decide)⟩

/-- C9: for every backup id, database path and expire time, the two
backup-construction copies agree: either both reject the path with a
validation error, or both forward the same `CreateBackupRequest`; and
the two validator variants accept exactly the same strings. -/
theorem claimC9_copies_equivalent (backupID db : Str) (t : Time) :
    ((∃ e1 e2, CreateNewBackup backupID db t = .err e1 ∧
      StartBackupOperation backupID db t = .err e2) ∨
    (∃ r, CreateNewBackup backupID db t = .req r ∧
      StartBackupOperation backupID db t = .req r)) ∧
    (validDatabaseNameErr db = none ↔
      ∃ pid, validDatabaseName db = .ok pid) := by
  constructor
  · by_cases h : IsValidDBPath db
    · right
      obtain ⟨p, i, d, hp, hi, hd, hp', hi', hd', rfl⟩ := h
      exact ⟨_, CreateNewBackup_dbPath backupID t hp hi hd hp' hi' hd',
        StartBackupOperation_dbPath backupID t hp hi hd hp' hi' hd'⟩
    · left
      exact ⟨_, _, CreateNewBackup_err backupID t h,
        StartBackupOperation_err backupID t h⟩
  · unfold validDatabaseNameErr validDatabaseName matchesDBPattern
    cases hx : extractDBParts db with
    | none => simp [hx]
    | some v => simp [hx]

/-- C10: `CreateNewBackup` raises a local error exactly when the path is
invalid; the backup id and expire time are never inspected, and on a
valid path the backup id is copied verbatim into the request. -/
theorem claimC10_error_iff_invalid (backupID db : Str) (t : Time) :
    (IsValidDBPath db → ∃ r, CreateNewBackup backupID db t = .req r ∧
      r.BackupId = backupID) ∧
    (¬ IsValidDBPath db → ∃ e, CreateNewBackup backupID db t = .err e) := by
  constructor
  · rintro ⟨p, i, d, hp, hi, hd, hp', hi', hd', rfl⟩
    exact ⟨_, CreateNewBackup_dbPath backupID t hp hi hd hp' hi' hd', rfl⟩
  · intro h
    exact ⟨_, CreateNewBackup_err backupID t h⟩

/-- Witness for C10: a backup id containing a slash is accepted verbatim
on a valid path, and an invalid path yields a local error. -/
theorem claimC10_witness :
    (∃ r, CreateNewBackup (str "back/up") (str "projects/" ++ str "a" ++
        str "/instances/" ++ str "b" ++ str "/databases/" ++ str "c")
        (unixTime 0 0) = .req r ∧ r.BackupId = str "back/up") ∧
    (∃ e, CreateNewBackup [] (str "nope") (unixTime 0 0) = .err e) :=
  ⟨(claimC10_error_iff_invalid (str "back/up") _ _).1
     ⟨str "a", str "b", str "c", by decide, by decide, by decide,
      by decide, by decide, by decide, rfl⟩,
   (claimC10_error_iff_invalid [] (str "nope") _).2
     (fun h => absurd (matchesDBPattern_iff.2 h) (by decide))⟩
